import Mathlib

/-!
Verification of the contracts-pallet benchmark harness
(`frame/contracts/src/benchmarking.rs`).

The development shallowly embeds the harness: the wasm-module builder
(`create_code`), the instruction-stream generators (`body_repeated`,
`body_counted`), and the contract-lifecycle driver
(`instantiate_contract_from_account`, `create_tombstone`, ...).

Machine integers are modelled as `Nat` with an explicit `% 2^32` where u32
overflow can occur.  External runtime collaborators (the pallet dispatch,
rent collection, storage writes) are not part of the source file; where a
claim depends on them they are modelled from the specification and marked
`Modelled from the spec:` in their doc comment.
-/

namespace Contracts

/-- The u32 modulus: wasm i32 immediates and the harness counters are 32-bit. -/
def W32 : Nat := 2 ^ 32

/-- Wasm value types (`parity_wasm::elements::ValueType`). -/
inductive ValueType
  | i32
  | i64
  | f32
  | f64
deriving DecidableEq, Repr

/-- Wasm block types (`parity_wasm::elements::BlockType`). -/
inductive BlockType
  | noResult
  | value (t : ValueType)
deriving DecidableEq, Repr

/-- The subset of `parity_wasm::elements::Instruction` used by the harness.
An `I32Const` immediate is stored as its 32-bit pattern, a `Nat` below `2^32`
(the Rust code stores the same bits as an `i32`). -/
inductive Instruction
  | Unreachable
  | Nop
  | If (bt : BlockType)
  | Else
  | End
  | Return
  | Call (k : Nat)
  | Drop
  | I32Const (bits : Nat)
  | I64Const (bits : Nat)
  | I32Eqz
deriving DecidableEq, Repr, Inhabited

/-- A function body: local declarations plus an instruction list
(`parity_wasm::elements::FuncBody`). -/
structure FuncBody where
  locals : List ValueType
  instructions : List Instruction
deriving DecidableEq, Repr

/-- An imported host function requested by a `ModuleDefinition`. -/
structure ImportedFunction where
  name : String
  params : List ValueType
  return_type : Option ValueType
deriving DecidableEq, Repr

/-- An imported linear memory requested by a `ModuleDefinition`. -/
structure ImportedMemory where
  min_pages : Nat
  max_pages : Nat
deriving DecidableEq, Repr

/-- A data segment requested by a `ModuleDefinition` (offset is a u32,
the payload a byte list). -/
structure DataSegment where
  offset : Nat
  value : List Nat
deriving DecidableEq, Repr

/-- The declarative module description consumed by `create_code`. -/
structure ModuleDefinition where
  data_segments : List DataSegment := []
  memory : Option ImportedMemory := none
  imported_functions : List ImportedFunction := []
  deploy_body : Option FuncBody := none
  call_body : Option FuncBody := none
deriving DecidableEq, Repr

/-- A wasm function signature (params and optional result). -/
structure FuncSignature where
  params : List ValueType
  return_type : Option ValueType
deriving DecidableEq, Repr

/-- The kind of a wasm import entry: a function with a signature, or a
linear memory with min/max page limits. -/
inductive ImportKind
  | function (sig : FuncSignature)
  | memory (minPages : Nat) (maxPages : Option Nat)
deriving DecidableEq, Repr

/-- One entry of the wasm import section. -/
structure WasmImport where
  module : String
  field : String
  kind : ImportKind
deriving DecidableEq, Repr

/-- One entry of the wasm export section; the harness only exports internal
functions, referenced by their index in the function index space. -/
structure WasmExport where
  field : String
  funcIndex : Nat
deriving DecidableEq, Repr

/-- One entry of the wasm data section: an offset initializer expression and
the payload bytes. -/
structure WasmDataSegment where
  offsetExpr : Instruction
  value : List Nat
deriving DecidableEq, Repr

/-- The built wasm module, as assembled by `parity_wasm::builder`:
imports in push order, the internal (defined) functions in definition
order, the exports, and the data segments. -/
structure WasmModule where
  imports : List WasmImport
  functions : List (FuncSignature × FuncBody)
  exports : List WasmExport
  data : List WasmDataSegment
deriving DecidableEq, Repr

/-- The body `parity_wasm`'s `Instructions::empty()` produces: no locals and
a single `End` opcode (the smallest valid wasm body). -/
def emptyBody : FuncBody := ⟨[], [Instruction.End]⟩

/-- Translation of `create_code` (benchmarking.rs lines 104-163): two internal
functions (deploy then call) with nullary/void signatures, exports "deploy"
and "call" bound to function indices `len(imports)` and `len(imports)+1`,
an optional memory import under "env"/"memory", the requested function
imports under "seal0" in declaration order, and one active data segment per
requested segment. -/
def create_code (defn : ModuleDefinition) : WasmModule :=
  let func_offset := defn.imported_functions.length
  { imports :=
      (match defn.memory with
        | some m => [⟨"env", "memory", ImportKind.memory m.min_pages (some m.max_pages)⟩]
        | none => []) ++
      defn.imported_functions.map
        (fun f => ⟨"seal0", f.name, ImportKind.function ⟨f.params, f.return_type⟩⟩)
    functions :=
      [ (⟨[], none⟩, defn.deploy_body.getD emptyBody)
      , (⟨[], none⟩, defn.call_body.getD emptyBody) ]
    exports :=
      [ ⟨"deploy", func_offset⟩
      , ⟨"call", func_offset + 1⟩ ]
    data :=
      defn.data_segments.map (fun d => ⟨Instruction.I32Const d.offset, d.value⟩) }

/-- The function imports of a module, in import-section order.  In the wasm
function index space these occupy indices `0 .. n-1`. -/
def functionImports (m : WasmModule) : List WasmImport :=
  m.imports.filter (fun i => match i.kind with
    | ImportKind.function _ => true
    | ImportKind.memory _ _ => false)

/-- The memory imports of a module, in import-section order. -/
def memoryImports (m : WasmModule) : List WasmImport :=
  m.imports.filter (fun i => match i.kind with
    | ImportKind.function _ => false
    | ImportKind.memory _ _ => true)

/-- An entity of the wasm function index space: an imported function or an
internal (defined) function. -/
inductive FuncEntity
  | imported (imp : WasmImport)
  | internal (sig : FuncSignature) (body : FuncBody)
deriving DecidableEq, Repr

/-- The wasm function index space: imported functions first (in import
order), then the module's own functions.  A `Call k` instruction targets
`(funcIndexSpace m).get? k`. -/
def funcIndexSpace (m : WasmModule) : List FuncEntity :=
  (functionImports m).map FuncEntity.imported ++
  m.functions.map (fun f => FuncEntity.internal f.1 f.2)

/-- Take `n` elements from the endless cyclic repetition of `orig`, given
the not-yet-consumed remainder `rest` of the current pass (Rust's
`iter().cycle().take(n)`; the cycle of an empty list is empty). -/
def cycleTakeAux (orig : List α) : Nat → List α → List α
  | 0, _ => []
  | Nat.succ n, [] =>
      match orig with
      | [] => []
      | a :: tl => a :: cycleTakeAux orig n tl
  | Nat.succ n, a :: tl => a :: cycleTakeAux orig n tl

/-- Take `n` elements from the cyclic repetition of `l`. -/
def cycleTake (l : List α) (n : Nat) : List α :=
  cycleTakeAux l n l

/-- Translation of `body_repeated` (benchmarking.rs lines 169-180): cycle the
given instruction slice, take `len * repetitions` elements, and append a
single `End`. -/
def body_repeated (repetitions : Nat) (instructions : List Instruction) : FuncBody :=
  ⟨[], cycleTake instructions (instructions.length * repetitions) ++ [Instruction.End]⟩

/-- A slot of the counted-repeat generator: a self-advancing `Counter`
(current offset and fixed increment, both u32) or a fixed instruction. -/
inductive CountedInstruction
  | Counter (offset : Nat) (increment_by : Nat)
  | Regular (instruction : Instruction)
deriving DecidableEq, Repr

/-- One emission step of `body_counted`: read slot `idx` of the mutable
sequence, emit its instruction, and advance a `Counter` slot by its
increment (u32 wrapping addition).  The index is always in range when
called from `body_counted`; Rust would panic on an out-of-range index. -/
def countedStep (instrs : List CountedInstruction) (idx : Nat) :
    List CountedInstruction × Instruction :=
  match instrs.get? idx with
  | some (CountedInstruction.Counter off inc) =>
      (instrs.set idx (CountedInstruction.Counter ((off + inc) % W32) inc),
       Instruction.I32Const off)
  | some (CountedInstruction.Regular i) => (instrs, i)
  | none => (instrs, Instruction.Unreachable)

/-- Emit one instruction per index in `idxs`, threading the mutated slot
sequence through the steps; returns the final slots and the emissions. -/
def emitMany : List CountedInstruction → List Nat →
    List CountedInstruction × List Instruction
  | s, [] => (s, [])
  | s, idx :: rest =>
      let p := countedStep s idx
      let q := emitMany p.1 rest
      (q.1, p.2 :: q.2)

/-- Translation of `body_counted` (benchmarking.rs lines 182-200): cycle over
the slot indices `0 .. len-1`, take `len * repetitions` of them, emit each
slot (advancing `Counter` slots in place), and append a single `End`. -/
def body_counted (repetitions : Nat) (instructions : List CountedInstruction) :
    FuncBody :=
  ⟨[], (emitMany instructions
          (cycleTake (List.range instructions.length)
            (instructions.length * repetitions))).2 ++ [Instruction.End]⟩

/-! ## Contract-lifecycle driver

The driver functions below translate the harness's fixture builders.  The
runtime collaborators they dispatch to (the pallet's `instantiate`, rent
projection and collection, raw storage writes) live outside this source
file; those are modelled from the specification and carry a
`Modelled from the spec:` doc comment. -/

/-- Account identifiers, abstracted to naturals. -/
abbrev AccountId := Nat

/-- A contract storage key (a fixed-length byte string in the runtime),
modelled as a byte list. -/
abbrev StorageKey := List Nat

/-- The runtime constants the harness reads (`T::RentDepositOffset`,
`T::StorageSizeOffset`, `T::SignedClaimHandicap`, the currency's minimum
balance and representable maximum, and the subsistence threshold). -/
structure Cfg where
  subsistenceThreshold : Nat
  rentDepositOffset : Nat
  storageSizeOffset : Nat
  signedClaimHandicap : Nat
  minimumBalance : Nat
  maxBalance : Nat
deriving Repr

/-- Unsigned saturating subtraction (`saturating_sub`); truncated `Nat`
subtraction already saturates at zero. -/
def saturating_sub (a b : Nat) : Nat := a - b

/-- Unsigned saturating multiplication (`saturating_mul`), capped at the
balance type's representable maximum. -/
def saturating_mul (cap a b : Nat) : Nat := min (a * b) cap

/-- Unsigned checked division (`checked_div`): fails exactly on a zero
divisor. -/
def checked_div (a b : Nat) : Option Nat := if b = 0 then none else some (a / b)

/-- Translation of `funding` (benchmarking.rs lines 405-407): half of the
representable maximum balance. -/
def funding (cfg : Cfg) : Nat := cfg.maxBalance / 2

/-- Translation of `max_endowment` (benchmarking.rs lines 409-411). -/
def max_endowment (cfg : Cfg) : Nat :=
  saturating_sub (funding cfg) cfg.minimumBalance

/-- The live contract bookkeeping the claims touch: the `storage_size`
field the harness overwrites, the contract's key/value storage, and the
eviction block the runtime's rent projection would report (the latter two
are runtime state, modelled from the spec). -/
structure AliveContractInfo where
  storage_size : Nat
  evictionBlock : Nat
  storage : List (StorageKey × List Nat)
deriving Repr, DecidableEq

/-- A contract's state in the registry: alive, or a tombstone retaining the
key/value items held at eviction time (spec: "a Tombstone fixture plus the
key/value storage snapshot it held at eviction time"). -/
inductive ContractInfo
  | Alive (info : AliveContractInfo)
  | Tombstone (storage : List (StorageKey × List Nat))
deriving Repr, DecidableEq

/-- The mutable runtime state the harness drives: block height, free
balances, and the contract registry. -/
structure World where
  block : Nat
  balances : AccountId → Nat
  contracts : AccountId → Option ContractInfo

/-- Observable actions of the fixture builder, recorded in source order so
that ordering claims (block set before dispatch) are statable. -/
inductive HarnessEvent
  | SetFreeBalance (a : AccountId) (amount : Nat)
  | SetBlockNumber (n : Nat)
  | PutCode
  | DispatchInstantiate (caller : AccountId) (endowment : Nat) (atBlock : Nat)
deriving DecidableEq, Repr

/-- The two endowment policies of the harness (`enum Endow`). -/
inductive Endow
  | Max
  | CollectRent
deriving DecidableEq, Repr

/-- Translation of the `Endow::CollectRent` arm of
`instantiate_contract_from_account` (benchmarking.rs lines 282-297):
`storage_size = subsistence_threshold.checked_div(RentDepositOffset)
.unwrap_or(0)` and `endowment = RentDepositOffset.saturating_mul
(storage_size + StorageSizeOffset).saturating_sub(1)`. -/
def collectRentEndow (cfg : Cfg) : Nat × Nat :=
  let storage_size := (checked_div cfg.subsistenceThreshold cfg.rentDepositOffset).getD 0
  let endowment :=
    saturating_sub
      (saturating_mul cfg.maxBalance cfg.rentDepositOffset
        (storage_size + cfg.storageSizeOffset)) 1
  (storage_size, endowment)

/-- Statement of the same computation in the words of the specification
claim: storage size is the subsistence threshold divided by the rent
deposit offset (zero when the division fails), and the endowment is the
rent deposit offset times (storage size plus the storage size offset),
saturating, minus one. -/
def collectRentEndowSpec (cfg : Cfg) : Nat × Nat :=
  let s := if cfg.rentDepositOffset = 0 then 0
           else cfg.subsistenceThreshold / cfg.rentDepositOffset
  (s, min (cfg.rentDepositOffset * (s + cfg.storageSizeOffset)) cfg.maxBalance - 1)

/-- Translation of `make_free_balance_be`: set an account's free balance. -/
def make_free_balance_be (w : World) (a : AccountId) (amount : Nat) : World :=
  { w with balances := fun x => if x = a then amount else w.balances x }

/-- Set the block height (`System::set_block_number`). -/
def set_block (w : World) (n : Nat) : World := { w with block := n }

/-- Translation of `init_block_number` (benchmarking.rs lines 426-435): set
the block number to one. -/
def init_block_number (w : World) : World := set_block w 1

/-- Modelled from the spec: the pallet's `instantiate(origin, endowment,
gas_limit, code_hash, input) -> address | error` dispatch, which is not in
this source file.  It fails when the endowment is below the subsistence
threshold, otherwise transfers the endowment from the caller to the new
contract account and registers an alive contract there; `runtimeInfo` is
the bookkeeping the runtime would create for it. -/
def dispatch_instantiate (cfg : Cfg) (runtimeInfo : AliveContractInfo)
    (w : World) (caller addr : AccountId) (endowment : Nat) : Except String World :=
  if endowment < cfg.subsistenceThreshold then
    Except.error "NewContractNotFunded"
  else
    Except.ok { w with
      balances := fun a =>
        if a = caller then w.balances caller - endowment
        else if a = addr then w.balances addr + endowment
        else w.balances a
      contracts := fun a =>
        if a = addr then some (ContractInfo.Alive runtimeInfo)
        else w.contracts a }

/-- Translation of `get_alive` (benchmarking.rs lines 386-389). -/
def get_alive (w : World) (addr : AccountId) : Except String AliveContractInfo :=
  match w.contracts addr with
  | some (ContractInfo.Alive info) => Except.ok info
  | _ => Except.error "Expected contract to be alive at this point."

/-- Translation of `ensure_alive` (benchmarking.rs lines 391-393). -/
def ensure_alive (w : World) (addr : AccountId) : Except String Unit :=
  match w.contracts addr with
  | some (ContractInfo.Alive _) => Except.ok ()
  | _ => Except.error "Expected contract to be alive at this point."

/-- Translation of `ensure_tombstone` (benchmarking.rs lines 395-399). -/
def ensure_tombstone (w : World) (addr : AccountId) : Except String Unit :=
  match w.contracts addr with
  | some (ContractInfo.Tombstone _) => Except.ok ()
  | _ => Except.error "Expected contract to be a tombstone at this point."

/-- Modelled from the spec: `rent_eviction_block(address) -> block_number`
(the harness's `eviction_at`, which asks the runtime's rent projection,
not in this source file): report the alive contract's eviction block. -/
def eviction_at (w : World) (addr : AccountId) : Except String Nat :=
  match w.contracts addr with
  | some (ContractInfo.Alive info) => Except.ok info.evictionBlock
  | _ => Except.error "Invalid acc for rent"

/-- Modelled from the spec: `collect_rent(address)` (the runtime's rent
collection, not in this source file).  Per the spec, collecting rent at or
past the contract's eviction block turns an alive contract into a
tombstone retaining its storage; before the eviction block the contract
remains alive. -/
def collect_rent (w : World) (addr : AccountId) : World :=
  match w.contracts addr with
  | some (ContractInfo.Alive info) =>
      if info.evictionBlock ≤ w.block then
        { w with contracts := fun a =>
            if a = addr then some (ContractInfo.Tombstone info.storage)
            else w.contracts a }
      else w
  | _ => w

/-- The fixture `instantiate_contract_from_account` returns (`struct
Contract`): caller, contract account, and endowment.  The lookup-form
address and the code hash carry no extra information here. -/
structure ContractFixture where
  caller : AccountId
  account_id : AccountId
  endowment : Nat
deriving Repr

/-- Saturating conversion of an unsigned value to u32
(`saturated_into::<u32>()`): values past `2^32 - 1` clamp to `2^32 - 1`. -/
def saturated_into_u32 (n : Nat) : Nat := min n (W32 - 1)

/-- The `(storage_size, endowment)` pair `instantiate_contract_from_account`
selects for each endowment policy (the `match endowment` at
benchmarking.rs lines 282-299). -/
def endowParams (cfg : Cfg) : Endow → Nat × Nat
  | Endow.CollectRent => collectRentEndow cfg
  | Endow.Max => (0, max_endowment cfg)

/-- Translation of `instantiate_contract_from_account` (benchmarking.rs
lines 275-321): choose (storage_size, endowment) by policy, fund the
caller with `funding()`, set the block number to one, register the code,
dispatch `instantiate`, then overwrite the alive contract's
`storage_size` with the pre-set value saturated into u32
(`contract.storage_size = storage_size.saturated_into::<u32>()`,
benchmarking.rs line 312).  The third component records the
observable actions in source order (`put_code_raw` registers the code
blob; no claim reads the code registry, so it is recorded as an event
only). -/
def instantiate_contract_from_account (cfg : Cfg) (runtimeInfo : AliveContractInfo)
    (w : World) (caller addr : AccountId) (endowment : Endow) :
    Except String (World × ContractFixture × List HarnessEvent) :=
  let p := endowParams cfg endowment
  let storage_size := p.1
  let endow := p.2
  let w1 := make_free_balance_be w caller (funding cfg)
  let w2 := init_block_number w1
  match dispatch_instantiate cfg runtimeInfo w2 caller addr endow with
  | Except.error e => Except.error e
  | Except.ok w3 =>
    match get_alive w3 addr with
    | Except.error e => Except.error e
    | Except.ok info =>
      let info2 := { info with storage_size := saturated_into_u32 storage_size }
      let w4 := { w3 with contracts := fun a =>
        if a = addr then some (ContractInfo.Alive info2) else w3.contracts a }
      Except.ok (w4, ⟨caller, addr, endow⟩,
        [ HarnessEvent.SetFreeBalance caller (funding cfg)
        , HarnessEvent.SetBlockNumber 1
        , HarnessEvent.PutCode
        , HarnessEvent.DispatchInstantiate caller endow w2.block ])

/-- Translation of `create_storage` (benchmarking.rs lines 357-368):
`stor_num` items keyed by the hash of their index, each a `stor_size`-byte
value of 42s.  The runtime's hasher is abstracted as `hashOf`. -/
def create_storage (hashOf : Nat → StorageKey) (stor_num stor_size : Nat) :
    List (StorageKey × List Nat) :=
  (List.range stor_num).map (fun i => (hashOf i, List.replicate stor_size 42))

/-- Translation of `store_items` (benchmarking.rs lines 340-355), with the
raw storage write (`write_contract_storage`, not in this source file)
modelled from the spec: seed the alive contract's storage with the given
key/value pairs; fails when the contract is not alive. -/
def store_items (w : World) (addr : AccountId)
    (items : List (StorageKey × List Nat)) : Except String World :=
  match w.contracts addr with
  | some (ContractInfo.Alive info) =>
      let info2 := { info with storage := info.storage ++ items }
      Except.ok { w with contracts := fun a =>
        if a = addr then some (ContractInfo.Alive info2) else w.contracts a }
  | _ => Except.error "Expected contract to be alive at this point."

/-- Translation of `create_tombstone` (benchmarking.rs lines 370-384):
instantiate with the rent-bearing policy, seed storage, set the block to
the eviction block plus the signed-claim handicap plus 5, collect rent,
and require a tombstone.  Returns the final world, the contract fixture,
and the seeded items (the source's `Tombstone { contract, storage }`). -/
def create_tombstone (cfg : Cfg) (runtimeInfo : AliveContractInfo) (w : World)
    (caller addr : AccountId) (hashOf : Nat → StorageKey) (stor_num stor_size : Nat) :
    Except String (World × ContractFixture × List (StorageKey × List Nat)) :=
  match instantiate_contract_from_account cfg runtimeInfo w caller addr Endow.CollectRent with
  | Except.error e => Except.error e
  | Except.ok (w1, contract, _) =>
    let storage_items := create_storage hashOf stor_num stor_size
    match store_items w1 contract.account_id storage_items with
    | Except.error e => Except.error e
    | Except.ok w2 =>
      match eviction_at w2 contract.account_id with
      | Except.error e => Except.error e
      | Except.ok ev =>
        let w3 := set_block w2 (ev + cfg.signedClaimHandicap + 5)
        let w4 := collect_rent w3 contract.account_id
        match ensure_tombstone w4 contract.account_id with
        | Except.error e => Except.error e
        | Except.ok _ => Except.ok (w4, contract, storage_items)

/-- Translation of the `instantiate` benchmark's setup and measured call
(benchmarking.rs lines 463-472): fund the caller with `funding()`,
register the dummy code, and dispatch `instantiate` with the given
endowment (the benchmark passes the subsistence threshold). -/
def instantiate_benchmark (cfg : Cfg) (runtimeInfo : AliveContractInfo)
    (w : World) (caller addr : AccountId) (endowment : Nat) : Except String World :=
  let w1 := make_free_balance_be w caller (funding cfg)
  dispatch_instantiate cfg runtimeInfo w1 caller addr endowment

/-- Dispatch `instantiate` and then check the resulting contract is alive,
the composite operation claim C9 ranges over. -/
def instantiate_and_alive_check (cfg : Cfg) (runtimeInfo : AliveContractInfo)
    (w : World) (caller addr : AccountId) (endowment : Nat) : Bool :=
  match dispatch_instantiate cfg runtimeInfo w caller addr endowment with
  | Except.ok w2 =>
      match ensure_alive w2 addr with
      | Except.ok _ => true
      | Except.error _ => false
  | Except.error _ => false

/-! ## Helper lemmas -/

theorem cycleTakeAux_nil (orig : List α) (m : Nat) :
    cycleTakeAux orig m [] = cycleTakeAux orig m orig := by
  cases m with
  | zero => rfl
  | succ n =>
    cases orig with
    | nil => rfl
    | cons a tl => rfl

theorem cycleTakeAux_consume (orig : List α) :
    ∀ (rest : List α) (m : Nat),
      cycleTakeAux orig (rest.length + m) rest = rest ++ cycleTakeAux orig m orig := by
  intro rest
  induction rest with
  | nil => intro m; simpa using cycleTakeAux_nil orig m
  | cons a tl ih =>
    intro m
    have hlen : (a :: tl).length + m = Nat.succ (tl.length + m) := by
      simp [List.length_cons]; omega
    rw [hlen]
    show a :: cycleTakeAux orig (tl.length + m) tl = (a :: tl) ++ cycleTakeAux orig m orig
    rw [ih m]
    rfl

theorem cycleTake_mul (l : List α) (n : Nat) :
    cycleTake l (l.length * n) = (List.replicate n l).flatten := by
  induction n with
  | zero => simp [cycleTake, cycleTakeAux]
  | succ k ih =>
    have h : l.length * (k + 1) = l.length + l.length * k := by ring
    rw [cycleTake, h, cycleTakeAux_consume l l (l.length * k)]
    rw [List.replicate_succ, List.flatten_cons]
    exact congrArg (l ++ ·) ih

/-- C2: for every repetition count `N` and instruction sequence `seq` of
length `K`, `body_repeated N seq` is the `K`-instruction sequence repeated
`N` times back-to-back followed by exactly one `End` terminator, hence
`N * K + 1` opcodes in total; in particular `body_repeated 0 seq` contains
only the `End` terminator. -/
theorem body_repeated_repeats_and_terminates (repetitions : Nat)
    (instructions : List Instruction) :
    (body_repeated repetitions instructions).instructions
      = (List.replicate repetitions instructions).flatten ++ [Instruction.End]
    ∧ (body_repeated repetitions instructions).instructions.length
      = repetitions * instructions.length + 1
    ∧ (body_repeated 0 instructions).instructions = [Instruction.End]
    ∧ (body_repeated repetitions instructions).locals = [] := by
  refine ⟨?_, ?_, ?_, rfl⟩
  · show cycleTake instructions (instructions.length * repetitions) ++ [Instruction.End]
      = (List.replicate repetitions instructions).flatten ++ [Instruction.End]
    rw [cycleTake_mul]
  · show (cycleTake instructions (instructions.length * repetitions)
      ++ [Instruction.End]).length = repetitions * instructions.length + 1
    rw [cycleTake_mul, List.length_append, List.length_flatten]
    simp [Nat.mul_comm]
  · show cycleTake instructions (instructions.length * 0) ++ [Instruction.End]
      = [Instruction.End]
    rw [cycleTake_mul]
    simp

theorem functionImports_create_code (d : ModuleDefinition) :
    functionImports (create_code d)
      = d.imported_functions.map
          (fun f => ⟨"seal0", f.name, ImportKind.function ⟨f.params, f.return_type⟩⟩) := by
  unfold functionImports create_code
  cases d.memory <;>
    simp [List.filter_append, List.filter_map, Function.comp_def, List.filter_eq_self]

theorem memoryImports_create_code (d : ModuleDefinition) :
    memoryImports (create_code d)
      = (match d.memory with
          | some m => [⟨"env", "memory", ImportKind.memory m.min_pages (some m.max_pages)⟩]
          | none => []) := by
  unfold memoryImports create_code
  cases d.memory <;>
    simp [List.filter_append, List.filter_map, Function.comp_def]

theorem funcIndexSpace_create_code (d : ModuleDefinition) :
    funcIndexSpace (create_code d)
      = d.imported_functions.map
          (fun f => FuncEntity.imported ⟨"seal0", f.name, ImportKind.function ⟨f.params, f.return_type⟩⟩)
        ++ [ FuncEntity.internal ⟨[], none⟩ (d.deploy_body.getD emptyBody)
           , FuncEntity.internal ⟨[], none⟩ (d.call_body.getD emptyBody) ] := by
  unfold funcIndexSpace
  rw [functionImports_create_code]
  simp [create_code, List.map_map, Function.comp_def]

/-- C1: the module `create_code` produces exports exactly "deploy" and
"call", bound to the two internal functions at indices `len(imports)` and
`len(imports) + 1` in the function index space (immediately after all
imported functions); every index `k` below `len(imports)` resolves to the
`k`-th requested import, so a `Call k` in a generated body targets the
`k`-th imported function; and an omitted deploy or call body is replaced
by the empty valid body (a lone `End`). -/
theorem create_code_exports_and_entry_points (d : ModuleDefinition) :
    (create_code d).exports
      = [ ⟨"deploy", d.imported_functions.length⟩
        , ⟨"call", d.imported_functions.length + 1⟩ ]
    ∧ (funcIndexSpace (create_code d)).get? d.imported_functions.length
        = some (FuncEntity.internal ⟨[], none⟩ (d.deploy_body.getD emptyBody))
    ∧ (funcIndexSpace (create_code d)).get? (d.imported_functions.length + 1)
        = some (FuncEntity.internal ⟨[], none⟩ (d.call_body.getD emptyBody))
    ∧ (∀ k f, d.imported_functions.get? k = some f →
        (funcIndexSpace (create_code d)).get? k
          = some (FuncEntity.imported
              ⟨"seal0", f.name, ImportKind.function ⟨f.params, f.return_type⟩⟩))
    ∧ (d.deploy_body = none →
        (funcIndexSpace (create_code d)).get? d.imported_functions.length
          = some (FuncEntity.internal ⟨[], none⟩ emptyBody))
    ∧ (d.call_body = none →
        (funcIndexSpace (create_code d)).get? (d.imported_functions.length + 1)
          = some (FuncEntity.internal ⟨[], none⟩ emptyBody)) := by
  have hspace := funcIndexSpace_create_code d
  have hlen : (d.imported_functions.map
      (fun f => FuncEntity.imported
        ⟨"seal0", f.name, ImportKind.function ⟨f.params, f.return_type⟩⟩)).length
      = d.imported_functions.length := List.length_map _ _
  refine ⟨rfl, ?_, ?_, ?_, ?_, ?_⟩
  · rw [hspace, List.get?_append_right (by rw [hlen])]
    rw [hlen, Nat.sub_self]
    rfl
  · rw [hspace, List.get?_append_right (by rw [hlen]; omega)]
    rw [hlen]
    have : d.imported_functions.length + 1 - d.imported_functions.length = 1 := by omega
    rw [this]
    rfl
  · intro k f hk
    have hklt : k < d.imported_functions.length := by
      have := List.get?_eq_some.mp hk
      exact this.choose
    rw [hspace, List.get?_append (by rw [hlen]; exact hklt)]
    rw [List.get?_map, hk]
    rfl
  · intro hnone
    rw [hspace, List.get?_append_right (by rw [hlen])]
    rw [hlen, Nat.sub_self, hnone]
    rfl
  · intro hnone
    rw [hspace, List.get?_append_right (by rw [hlen]; omega)]
    rw [hlen]
    have : d.imported_functions.length + 1 - d.imported_functions.length = 1 := by omega
    rw [this, hnone]
    rfl

/-- C1 witness: a concrete module with one import and both bodies omitted;
its exports bind "deploy" and "call" to indices 1 and 2, index 0 resolves
to the imported function, and both synthesized bodies are the empty valid
body. -/
theorem create_code_exports_and_entry_points_witness :
    (create_code { imported_functions := [⟨"seal_caller", [], none⟩] }).exports
      = [⟨"deploy", 1⟩, ⟨"call", 2⟩]
    ∧ (funcIndexSpace (create_code { imported_functions := [⟨"seal_caller", [], none⟩] })).get? 0
        = some (FuncEntity.imported ⟨"seal0", "seal_caller", ImportKind.function ⟨[], none⟩⟩)
    ∧ (funcIndexSpace (create_code { imported_functions := [⟨"seal_caller", [], none⟩] })).get? 1
        = some (FuncEntity.internal ⟨[], none⟩ emptyBody) := by
  have h := create_code_exports_and_entry_points
    { imported_functions := [⟨"seal_caller", [], none⟩] }
  exact ⟨h.1, h.2.2.2.1 0 ⟨"seal_caller", [], none⟩ rfl, h.2.2.2.2.1 rfl⟩

/-- C4: `create_code` is deterministic; two invocations on inputs with
identical imports, memory descriptor, data segments, and bodies yield the
same module, hence any content-hash function yields identical hashes. -/
theorem create_code_deterministic (d1 d2 : ModuleDefinition)
    (h1 : d1.data_segments = d2.data_segments)
    (h2 : d1.memory = d2.memory)
    (h3 : d1.imported_functions = d2.imported_functions)
    (h4 : d1.deploy_body = d2.deploy_body)
    (h5 : d1.call_body = d2.call_body) :
    create_code d1 = create_code d2
    ∧ ∀ (hashFn : WasmModule → List Nat),
        hashFn (create_code d1) = hashFn (create_code d2) := by
  have hd : d1 = d2 := by
    cases d1
    cases d2
    simp_all
  subst hd
  exact ⟨rfl, fun _ => rfl⟩

/-- C4 witness: the determinism theorem applied at the default module
definition. -/
theorem create_code_deterministic_witness :
    create_code {} = create_code {}
    ∧ ∀ (hashFn : WasmModule → List Nat),
        hashFn (create_code {}) = hashFn (create_code {}) :=
  create_code_deterministic {} {} rfl rfl rfl rfl rfl

/-- C5: every requested function import is registered under the fixed
namespace "seal0" in declaration order; a requested memory yields exactly
one memory import under "env"/"memory" with exactly the given min and max
page bounds, and no memory import exists otherwise. -/
theorem create_code_import_registration (d : ModuleDefinition) :
    functionImports (create_code d)
      = d.imported_functions.map
          (fun f => ⟨"seal0", f.name, ImportKind.function ⟨f.params, f.return_type⟩⟩)
    ∧ (∀ mem, d.memory = some mem →
        memoryImports (create_code d)
          = [⟨"env", "memory", ImportKind.memory mem.min_pages (some mem.max_pages)⟩])
    ∧ (d.memory = none → memoryImports (create_code d) = []) := by
  refine ⟨functionImports_create_code d, ?_, ?_⟩
  · intro mem hmem
    rw [memoryImports_create_code, hmem]
  · intro hmem
    rw [memoryImports_create_code, hmem]

/-- C5 witness: a concrete module requesting one function and a memory of
2 to 16 pages registers exactly those imports. -/
theorem create_code_import_registration_witness :
    functionImports (create_code
        { memory := some ⟨2, 16⟩, imported_functions := [⟨"seal_input", [ValueType.i32], none⟩] })
      = [⟨"seal0", "seal_input", ImportKind.function ⟨[ValueType.i32], none⟩⟩]
    ∧ memoryImports (create_code
        { memory := some ⟨2, 16⟩, imported_functions := [⟨"seal_input", [ValueType.i32], none⟩] })
      = [⟨"env", "memory", ImportKind.memory 2 (some 16)⟩] := by
  have h := create_code_import_registration
    { memory := some ⟨2, 16⟩, imported_functions := [⟨"seal_input", [ValueType.i32], none⟩] }
  exact ⟨h.1, h.2.1 ⟨2, 16⟩ rfl⟩

/-! ## Characterization of `body_counted` -/

/-- Advance one counted slot: a `Counter` moves by its increment (u32
wrapping), a `Regular` slot is unchanged. -/
def stepSlot : CountedInstruction → CountedInstruction
  | CountedInstruction.Counter off inc => CountedInstruction.Counter ((off + inc) % W32) inc
  | CountedInstruction.Regular i => CountedInstruction.Regular i

/-- The instruction one counted slot emits in its current state. -/
def emitSlot : CountedInstruction → Instruction
  | CountedInstruction.Counter off _ => Instruction.I32Const off
  | CountedInstruction.Regular i => i

/-- Advance every slot of a pass once. -/
def advanceSlots (s : List CountedInstruction) : List CountedInstruction :=
  s.map stepSlot

theorem emitMany_append (l1 l2 : List Nat) :
    ∀ (s : List CountedInstruction),
      emitMany s (l1 ++ l2)
        = ((emitMany (emitMany s l1).1 l2).1,
           (emitMany s l1).2 ++ (emitMany (emitMany s l1).1 l2).2) := by
  induction l1 with
  | nil => intro s; simp [emitMany]
  | cons idx tl ih =>
    intro s
    show emitMany s (idx :: (tl ++ l2)) = _
    simp only [emitMany, ih]
    simp

theorem set_append_length (pre : List α) (a b : α) (tl : List α) :
    (pre ++ a :: tl).set pre.length b = pre ++ b :: tl := by
  induction pre with
  | nil => rfl
  | cons x xs ih => simp [List.set, ih]

theorem get?_append_length (pre : List α) (a : α) (tl : List α) :
    (pre ++ a :: tl).get? pre.length = some a := by
  induction pre with
  | nil => rfl
  | cons x xs ih => simpa using ih

theorem countedStep_at (pre : List CountedInstruction) (a : CountedInstruction)
    (tl : List CountedInstruction) :
    countedStep (pre ++ a :: tl) pre.length = (pre ++ stepSlot a :: tl, emitSlot a) := by
  unfold countedStep
  rw [get?_append_length]
  cases a with
  | Counter off inc => simp [stepSlot, emitSlot, set_append_length]
  | Regular i => simp [stepSlot, emitSlot]

theorem emitMany_one_pass :
    ∀ (s pre : List CountedInstruction),
      emitMany (pre ++ s) (List.range' pre.length s.length)
        = (pre ++ s.map stepSlot, s.map emitSlot) := by
  intro s
  induction s with
  | nil => intro pre; simp [emitMany]
  | cons a tl ih =>
    intro pre
    show emitMany (pre ++ a :: tl) (pre.length :: List.range' (pre.length + 1) tl.length) = _
    simp only [emitMany, countedStep_at]
    have hpre : pre ++ stepSlot a :: tl = (pre ++ [stepSlot a]) ++ tl := by simp
    have hlen : pre.length + 1 = (pre ++ [stepSlot a]).length := by simp
    rw [hpre, hlen, ih (pre ++ [stepSlot a])]
    simp

theorem emitMany_full_pass (s : List CountedInstruction) :
    emitMany s (List.range s.length) = (advanceSlots s, s.map emitSlot) := by
  have h := emitMany_one_pass s []
  simpa [List.range_eq_range', advanceSlots] using h

theorem emitMany_passes (N : Nat) :
    ∀ (s : List CountedInstruction),
      emitMany s ((List.replicate N (List.range s.length)).flatten)
        = (advanceSlots^[N] s,
           ((List.range N).map (fun i => (advanceSlots^[i] s).map emitSlot)).flatten) := by
  induction N with
  | zero => intro s; simp [emitMany]
  | succ k ih =>
    intro s
    rw [List.replicate_succ, List.flatten_cons, emitMany_append, emitMany_full_pass]
    have hlen : s.length = (advanceSlots s).length := by simp [advanceSlots]
    rw [hlen, ih (advanceSlots s)]
    refine Prod.ext_iff.mpr ⟨?_, ?_⟩
    · simp [Function.iterate_succ_apply]
    · rw [List.range_succ_eq_map, List.map_cons, List.flatten_cons]
      simp [Function.iterate_succ_apply, Function.comp_def]

theorem advanceSlots_iter_length (p : Nat) (s : List CountedInstruction) :
    (advanceSlots^[p] s).length = s.length := by
  induction p generalizing s with
  | zero => rfl
  | succ q ih =>
    rw [Function.iterate_succ_apply, ih]
    simp [advanceSlots]

theorem advanceSlots_iter_get? (i : Nat) :
    ∀ (s : List CountedInstruction) (j : Nat),
      (advanceSlots^[i] s).get? j = (s.get? j).map (stepSlot^[i]) := by
  induction i with
  | zero => intro s j; simp
  | succ k ih =>
    intro s j
    rw [Function.iterate_succ_apply, ih]
    simp [advanceSlots, List.get?_map, Option.map_map]

theorem stepSlot_iter_counter (i : Nat) :
    ∀ (base inc : Nat), base < W32 →
      stepSlot^[i] (CountedInstruction.Counter base inc)
        = CountedInstruction.Counter ((base + i * inc) % W32) inc := by
  induction i with
  | zero => intro base inc hbase; simp [Nat.mod_eq_of_lt hbase]
  | succ k ih =>
    intro base inc hbase
    rw [Function.iterate_succ_apply]
    show stepSlot^[k] (CountedInstruction.Counter ((base + inc) % W32) inc) = _
    rw [ih ((base + inc) % W32) inc (Nat.mod_lt _ (by norm_num [W32]))]
    congr 1
    rw [Nat.mod_add_mod]
    congr 1
    ring

theorem get?_flatten_uniform (K : Nat) :
    ∀ (ls : List (List Instruction)) (i j : Nat),
      (∀ l ∈ ls, l.length = K) → j < K → i < ls.length →
      ls.flatten.get? (i * K + j) = (ls.get? i).bind (fun l => l.get? j) := by
  intro ls
  induction ls with
  | nil => intro i j _ _ hi; simp at hi
  | cons a tl ih =>
    intro i j hall hj hi
    cases i with
    | zero =>
      have ha : a.length = K := hall a (by simp)
      rw [List.flatten_cons]
      rw [List.get?_append (by omega)]
      simp
    | succ m =>
      have ha : a.length = K := hall a (by simp)
      rw [List.flatten_cons]
      have hge : a.length ≤ (m + 1) * K + j := by
        rw [ha]
        calc K ≤ (m + 1) * K := Nat.le_mul_of_pos_left K (by omega)
        _ ≤ (m + 1) * K + j := Nat.le_add_right _ _
      rw [List.get?_append_right hge]
      have hidx : (m + 1) * K + j - a.length = m * K + j := by
        rw [ha]
        have : (m + 1) * K = m * K + K := by ring
        omega
      rw [hidx, ih m j (fun l hl => hall l (by simp [hl])) hj (by simpa using hi)]
      rfl

theorem body_counted_emissions (N : Nat) (seq : List CountedInstruction) :
    (body_counted N seq).instructions
      = ((List.range N).map (fun i => (advanceSlots^[i] seq).map emitSlot)).flatten
        ++ [Instruction.End] := by
  unfold body_counted
  have h1 : seq.length * N = (List.range seq.length).length * N := by
    rw [List.length_range]
  rw [h1, cycleTake_mul, emitMany_passes]

/-- C3 (amended): for a `Counter (base, increment)` at slot `j` of the
sequence (with `base` a u32), the i-th (0-indexed) emission of that slot in
`body_counted N seq` is the constant `(base + i * increment) mod 2^32`, and
these emitted values are strictly increasing across `i` provided the
increment is positive and `base + (N-1) * increment` stays below `2^32`. -/
theorem body_counted_counter_slots (seq : List CountedInstruction)
    (j base inc N : Nat)
    (hj : seq.get? j = some (CountedInstruction.Counter base inc))
    (hbase : base < W32) :
    (∀ i, i < N →
      (body_counted N seq).instructions.get? (i * seq.length + j)
        = some (Instruction.I32Const ((base + i * inc) % W32)))
    ∧ (0 < inc → base + (N - 1) * inc < W32 →
        ∀ i1 i2, i1 < i2 → i2 < N →
          (base + i1 * inc) % W32 < (base + i2 * inc) % W32) := by
  have hjlt : j < seq.length := (List.get?_eq_some.mp hj).choose
  constructor
  · intro i hi
    rw [body_counted_emissions]
    have hE : (((List.range N).map
        (fun p => (advanceSlots^[p] seq).map emitSlot)).flatten).get? (i * seq.length + j)
        = some (Instruction.I32Const ((base + i * inc) % W32)) := by
      rw [get?_flatten_uniform seq.length _ i j ?hall hjlt ?hlen]
      case hall =>
        intro l hl
        obtain ⟨p, -, hp⟩ := List.mem_map.mp hl
        rw [← hp, List.length_map, advanceSlots_iter_length]
      case hlen =>
        simpa using hi
      rw [List.get?_map, List.get?_range hi]
      show ((advanceSlots^[i] seq).map emitSlot).get? j = _
      rw [List.get?_map, advanceSlots_iter_get?, hj]
      show some (emitSlot (stepSlot^[i] (CountedInstruction.Counter base inc))) = _
      rw [stepSlot_iter_counter i base inc hbase]
      rfl
    have hlt := (List.get?_eq_some.mp hE).choose
    rw [List.get?_append hlt]
    exact hE
  · intro hinc hbound i1 i2 h12 h2N
    have hmono1 : i1 * inc ≤ (N - 1) * inc := Nat.mul_le_mul_right inc (by omega)
    have hmono2 : i2 * inc ≤ (N - 1) * inc := Nat.mul_le_mul_right inc (by omega)
    have hlt12 : i1 * inc < i2 * inc := Nat.mul_lt_mul_of_lt_of_le h12 le_rfl hinc
    rw [Nat.mod_eq_of_lt (by omega), Nat.mod_eq_of_lt (by omega)]
    omega

/-- C3 witness: the amended theorem evaluated at two repetitions of the
single slot `Counter (3, 5)`: the second emission is `(3 + 1*5) mod 2^32`
and the two emitted values increase. -/
theorem body_counted_counter_slots_witness :
    (body_counted 2 [CountedInstruction.Counter 3 5]).instructions.get? 1
      = some (Instruction.I32Const ((3 + 1 * 5) % W32))
    ∧ (3 + 0 * 5) % W32 < (3 + 1 * 5) % W32 := by
  have h := body_counted_counter_slots [CountedInstruction.Counter 3 5] 0 3 5 2
    rfl (by norm_num [W32])
  refine ⟨?_, h.2 (by norm_num) (by norm_num [W32]) 0 1 (by norm_num) (by norm_num)⟩
  have h1 := h.1 1 (by norm_num)
  simpa using h1

/-- C3 counterexample: the claim as stated fails.  With `Counter (0, 0)`
the two emissions of the slot are equal, so they are not strictly
increasing across i; and with `Counter (2^32 - 1, 1)` the second emission
is 0, not the claimed constant `base + 1 * increment = 2^32` (the u32
counter wraps). -/
theorem body_counted_claim_counterexample :
    (body_counted 2 [CountedInstruction.Counter 0 0]).instructions.get? 0
      = (body_counted 2 [CountedInstruction.Counter 0 0]).instructions.get? 1
    ∧ (body_counted 2 [CountedInstruction.Counter (W32 - 1) 1]).instructions.get? 1
      = some (Instruction.I32Const 0)
    ∧ some (Instruction.I32Const 0)
        ≠ some (Instruction.I32Const ((W32 - 1) + 1 * 1)) := by
  refine ⟨by decide, by decide, by decide⟩

/-! ## Lifecycle theorems -/

/-- C6: under the rent-bearing endowment policy, `create_tombstone` sets
the block to the contract's eviction block plus the signed-claim handicap
plus the margin of 5, collects rent, and always ends with the contract a
tombstone retaining the seeded key/value items (which the returned fixture
carries verbatim); and collecting rent at any block strictly before the
eviction block (as the `call` benchmark does at eviction block minus 5)
leaves an alive contract alive. -/
theorem create_tombstone_evicts (cfg : Cfg) (info : AliveContractInfo) (w : World)
    (caller addr : AccountId) (hashOf : Nat → StorageKey) (n sz : Nat)
    (hok : ¬ (collectRentEndow cfg).2 < cfg.subsistenceThreshold) :
    (create_tombstone cfg info w caller addr hashOf n sz).toOption.map
        (fun r => (r.1.contracts addr, r.2.2))
      = some (some (ContractInfo.Tombstone (info.storage ++ create_storage hashOf n sz)),
              create_storage hashOf n sz)
    ∧ (∀ (w2 : World) (b : Nat) (i2 : AliveContractInfo),
        w2.contracts addr = some (ContractInfo.Alive i2) → b < i2.evictionBlock →
        (collect_rent (set_block w2 b) addr).contracts addr
          = some (ContractInfo.Alive i2)) := by
  constructor
  · simp only [create_tombstone, instantiate_contract_from_account, endowParams,
      make_free_balance_be, init_block_number, set_block, dispatch_instantiate,
      get_alive, store_items, eviction_at, collect_rent, ensure_tombstone]
    rw [if_neg hok]
    have hev : info.evictionBlock ≤ info.evictionBlock + cfg.signedClaimHandicap + 5 := by
      omega
    simp [Except.toOption, hev]
  · intro w2 b i2 halive hb
    simp [collect_rent, set_block, halive, Nat.not_le.mpr hb]

/-- C6 witness: a concrete rent-bearing contract with eviction block 7 and
two seeded 3-byte items becomes a tombstone retaining exactly those items,
and rent collection at block 6 leaves it alive. -/
theorem create_tombstone_evicts_witness :
    (create_tombstone ⟨10, 5, 1, 3, 1, 1000⟩ ⟨0, 7, []⟩ ⟨0, fun _ => 0, fun _ => none⟩
        0 1 (fun i => [i]) 2 3).toOption.map (fun r => (r.1.contracts 1, r.2.2))
      = some (some (ContractInfo.Tombstone [([0], [42, 42, 42]), ([1], [42, 42, 42])]),
              [([0], [42, 42, 42]), ([1], [42, 42, 42])])
    ∧ (collect_rent (set_block ⟨0, fun _ => 0,
          fun a => if a = 1 then some (ContractInfo.Alive ⟨0, 7, []⟩) else none⟩ 6) 1).contracts 1
        = some (ContractInfo.Alive ⟨0, 7, []⟩) := by
  have h := create_tombstone_evicts ⟨10, 5, 1, 3, 1, 1000⟩ ⟨0, 7, []⟩
    ⟨0, fun _ => 0, fun _ => none⟩ 0 1 (fun i => [i]) 2 3 (by decide)
  constructor
  · have h1 := h.1
    rw [h1]
    rfl
  · exact h.2 _ 6 ⟨0, 7, []⟩ (by simp) (by norm_num)

/-- C7 (amended): under `Endow::CollectRent` the harness computes
`storage_size` as the subsistence threshold divided by `RentDepositOffset`
(zero when the division fails) and the endowment as `RentDepositOffset *
(storage_size + StorageSizeOffset)` saturating, minus one saturating; and
after successful instantiation the alive contract's `storage_size` field
is overwritten with the saturating u32 conversion of this pre-set value
(`storage_size.saturated_into::<u32>()`). -/
theorem instantiate_collect_rent_presets (cfg : Cfg) (info : AliveContractInfo)
    (w : World) (caller addr : AccountId)
    (hok : ¬ (collectRentEndow cfg).2 < cfg.subsistenceThreshold) :
    collectRentEndow cfg = collectRentEndowSpec cfg
    ∧ (instantiate_contract_from_account cfg info w caller addr
          Endow.CollectRent).toOption.map
        (fun r => (r.1.contracts addr, r.2.1.endowment))
      = some (some (ContractInfo.Alive
                { info with storage_size := saturated_into_u32 (collectRentEndow cfg).1 }),
              (collectRentEndow cfg).2) := by
  constructor
  · unfold collectRentEndow collectRentEndowSpec checked_div saturating_mul saturating_sub
    by_cases h : cfg.rentDepositOffset = 0 <;> simp [h]
  · simp only [instantiate_contract_from_account, endowParams, make_free_balance_be,
      init_block_number, set_block, dispatch_instantiate, get_alive]
    rw [if_neg hok]
    simp [Except.toOption]

/-- C7 witness: with subsistence threshold 10, rent deposit offset 5 and
storage size offset 1, the harness presets `storage_size = 2` and
endowment `5 * (2 + 1) - 1 = 14`, and the instantiated contract's
`storage_size` reads back as 2. -/
theorem instantiate_collect_rent_presets_witness :
    collectRentEndow ⟨10, 5, 1, 3, 1, 1000⟩ = (2, 14)
    ∧ (instantiate_contract_from_account ⟨10, 5, 1, 3, 1, 1000⟩ ⟨99, 7, []⟩
          ⟨0, fun _ => 0, fun _ => none⟩ 0 1 Endow.CollectRent).toOption.map
        (fun r => (r.1.contracts 1, r.2.1.endowment))
      = some (some (ContractInfo.Alive ⟨2, 7, []⟩), 14) := by
  have h := instantiate_collect_rent_presets ⟨10, 5, 1, 3, 1, 1000⟩ ⟨99, 7, []⟩
    ⟨0, fun _ => 0, fun _ => none⟩ 0 1 (by decide)
  refine ⟨by decide, ?_⟩
  rw [h.2]
  rfl

/-- C7 counterexample: the claim as stated (the field overwritten with the
pre-set `storage_size` value itself) fails when the pre-set value exceeds
the u32 range: with subsistence threshold `2^40` and rent deposit offset 1
the pre-set storage size is `2^40` and instantiation succeeds, but the
program stores the u32 saturation `2^32 - 1`, not `2^40`. -/
theorem storage_size_overwrite_counterexample :
    (instantiate_contract_from_account ⟨2 ^ 40, 1, 1, 3, 1, 2 ^ 50⟩ ⟨0, 7, []⟩
        ⟨0, fun _ => 0, fun _ => none⟩ 0 1 Endow.CollectRent).toOption.map
        (fun r => r.1.contracts 1)
      = some (some (ContractInfo.Alive ⟨2 ^ 32 - 1, 7, []⟩))
    ∧ (collectRentEndow ⟨2 ^ 40, 1, 1, 3, 1, 2 ^ 50⟩).1 = 2 ^ 40
    ∧ (2 : Nat) ^ 32 - 1 ≠ 2 ^ 40 := by
  refine ⟨by decide, by decide, by decide⟩

/-- C8: after the measured instantiate succeeds for a caller funded with
`funding()`, an untouched contract account, and an endowment `e` at least
the subsistence threshold (no rent collected), the caller's free balance
is `funding() - e`, the contract account's free balance is exactly `e`,
and the contract at the computed address is alive.  The bound
`e ≤ funding cfg` records the domain on which the runtime's balance
subtraction is meaningful. -/
theorem instantiate_benchmark_balances (cfg : Cfg) (info : AliveContractInfo)
    (w : World) (caller addr : AccountId) (e : Nat)
    (hne : caller ≠ addr)
    (hth : ¬ e < cfg.subsistenceThreshold)
    (hzero : w.balances addr = 0)
    (_hle : e ≤ funding cfg) :
    (instantiate_benchmark cfg info w caller addr e).toOption.map
        (fun w2 => (w2.balances caller, w2.balances addr, w2.contracts addr))
      = some (funding cfg - e, e, some (ContractInfo.Alive info)) := by
  simp only [instantiate_benchmark, make_free_balance_be, dispatch_instantiate]
  rw [if_neg hth]
  simp [Except.toOption, Ne.symm hne, hzero]

/-- C8 witness: a caller funded with 500 instantiating with endowment 10
keeps 490, the contract account holds exactly 10, and the contract is
alive. -/
theorem instantiate_benchmark_balances_witness :
    (instantiate_benchmark ⟨10, 5, 1, 3, 1, 1000⟩ ⟨0, 7, []⟩
        ⟨0, fun _ => 0, fun _ => none⟩ 0 1 10).toOption.map
        (fun w2 => (w2.balances 0, w2.balances 1, w2.contracts 1))
      = some (490, 10, some (ContractInfo.Alive ⟨0, 7, []⟩)) := by
  have h := instantiate_benchmark_balances ⟨10, 5, 1, 3, 1, 1000⟩ ⟨0, 7, []⟩
    ⟨0, fun _ => 0, fun _ => none⟩ 0 1 10 (by decide) (by decide) rfl (by decide)
  rw [h]
  rfl

/-- C9: dispatching `instantiate` and then checking that the resulting
contract is alive succeeds exactly when the endowment is at least the
subsistence threshold; in particular it succeeds at the `instantiate`
benchmark's choice of endowment, the subsistence threshold itself. -/
theorem instantiate_alive_check_iff (cfg : Cfg) (info : AliveContractInfo)
    (w : World) (caller addr : AccountId) (e : Nat) :
    (instantiate_and_alive_check cfg info w caller addr e = true
      ↔ cfg.subsistenceThreshold ≤ e)
    ∧ instantiate_and_alive_check cfg info w caller addr
        cfg.subsistenceThreshold = true := by
  constructor
  · unfold instantiate_and_alive_check dispatch_instantiate ensure_alive
    by_cases h : e < cfg.subsistenceThreshold
    · rw [if_pos h]
      simp
      omega
    · rw [if_neg h]
      simp
      omega
  · unfold instantiate_and_alive_check dispatch_instantiate ensure_alive
    rw [if_neg (lt_irrefl _)]
    simp

/-- C9 witness: the equivalence applied at a concrete configuration with
subsistence threshold 10: endowment 10 passes the alive check, endowment
9 fails it. -/
theorem instantiate_alive_check_iff_witness :
    instantiate_and_alive_check ⟨10, 5, 1, 3, 1, 1000⟩ ⟨0, 7, []⟩
        ⟨0, fun _ => 0, fun _ => none⟩ 0 1 10 = true
    ∧ instantiate_and_alive_check ⟨10, 5, 1, 3, 1, 1000⟩ ⟨0, 7, []⟩
        ⟨0, fun _ => 0, fun _ => none⟩ 0 1 9 ≠ true := by
  constructor
  · exact (instantiate_alive_check_iff ⟨10, 5, 1, 3, 1, 1000⟩ ⟨0, 7, []⟩
      ⟨0, fun _ => 0, fun _ => none⟩ 0 1 10).1.mpr (by norm_num)
  · intro hcontra
    have h := (instantiate_alive_check_iff ⟨10, 5, 1, 3, 1, 1000⟩ ⟨0, 7, []⟩
      ⟨0, fun _ => 0, fun _ => none⟩ 0 1 9).1.mp hcontra
    exact absurd h (by decide)

/-- C10: every successful run of `instantiate_contract_from_account` emits,
in order, the caller funding, a `SetBlockNumber 1` (the explicit bump of
`init_block_number`), the code registration, and only then the
instantiation dispatch, which therefore executes at block height 1; the
returned world still has block height 1, so the subsequent measured call
runs at that same height unless the scenario advances the block
explicitly. -/
theorem instantiate_runs_at_block_one (cfg : Cfg) (info : AliveContractInfo)
    (w : World) (caller addr : AccountId) (e : Endow)
    (hok : ¬ (endowParams cfg e).2 < cfg.subsistenceThreshold) :
    (instantiate_contract_from_account cfg info w caller addr e).toOption.map
        (fun r => (r.2.2, r.1.block))
      = some ([ HarnessEvent.SetFreeBalance caller (funding cfg)
              , HarnessEvent.SetBlockNumber 1
              , HarnessEvent.PutCode
              , HarnessEvent.DispatchInstantiate caller (endowParams cfg e).2 1 ], 1) := by
  simp only [instantiate_contract_from_account, make_free_balance_be,
    init_block_number, set_block, dispatch_instantiate, get_alive]
  rw [if_neg hok]
  simp [Except.toOption]

/-- C10 witness: a concrete rent-bearing fixture emits the funding, the
block bump to 1, the code registration and the dispatch (at block 1) in
that order, and finishes at block height 1. -/
theorem instantiate_runs_at_block_one_witness :
    (instantiate_contract_from_account ⟨10, 5, 1, 3, 1, 1000⟩ ⟨0, 7, []⟩
        ⟨0, fun _ => 0, fun _ => none⟩ 0 1 Endow.CollectRent).toOption.map
        (fun r => (r.2.2, r.1.block))
      = some ([ HarnessEvent.SetFreeBalance 0 500
              , HarnessEvent.SetBlockNumber 1
              , HarnessEvent.PutCode
              , HarnessEvent.DispatchInstantiate 0 14 1 ], 1) := by
  have h := instantiate_runs_at_block_one ⟨10, 5, 1, 3, 1, 1000⟩ ⟨0, 7, []⟩
    ⟨0, fun _ => 0, fun _ => none⟩ 0 1 Endow.CollectRent (by decide)
  rw [h]
  rfl

end Contracts
